import Mathlib

set_option maxRecDepth 2048

/-!
Verification of the saunds audio band-splitter.

The source (src/src/audio/mod.rs, src/src/main.rs) is embedded shallowly:
`f32` samples become `ℚ` (every arithmetic operation the claims depend on —
multiplication by window coefficients, division by the window size or by
32768, addition into accumulators — is exact in this model), complex spectrum
values become pairs `ℚ × ℚ`, vectors become `List`s, and fallible operations
return `Except String`.  The external FFT library (realfft) is not part of
the repository; it is modelled by its contract: an abstract forward/inverse
transform that fails exactly on malformed buffer sizes and always writes an
output of the planned length.  The Hann coefficient table is built from an
abstract coefficient function `hann : ℕ → ℚ`, because its values
(`0.5 * (1 - cos ...)`) are transcendental and none of the claims below
depend on them.
-/

namespace Saunds

/-- Complex spectrum values, as (re, im) pairs of rationals. -/
abbrev Cq : Type := ℚ × ℚ

/-- `let window_size = 2048;` (mod.rs line 71). -/
def windowSize : ℕ := 2048

/-- `let overlap = window_size / 2;` (mod.rs line 72), the hop size. -/
def overlap : ℕ := windowSize / 2

/-- Modelled from the spec: the realfft forward/inverse transform pair
planned at `window_size` (mod.rs lines 81-83).  The library is external to
the repository; per spec §7 a `TransformError` "should only occur on
malformed buffer sizes", and the library always fills the whole output
buffer, so a plan is an arbitrary pair of functions producing outputs of the
planned lengths, wrapped below in length-checking `process` calls. -/
structure Transform where
  fwd : List ℚ → List Cq
  inv : List Cq → List ℚ
  fwd_length : ∀ l, (fwd l).length = windowSize / 2 + 1
  inv_length : ∀ l, (inv l).length = windowSize

/-- Modelled from the spec: `fft.process(&mut window, &mut spectrum)`
(mod.rs lines 114-115) — fails iff the input buffer is not `window_size`
long or the output buffer is not `window_size/2 + 1` long; otherwise
overwrites the output buffer with the transform of the input. -/
def fwdProcess (t : Transform) (input : List ℚ) (output : List Cq) :
    Except String (List Cq) :=
  if input.length = windowSize ∧ output.length = windowSize / 2 + 1 then
    Except.ok (t.fwd input)
  else Except.error "Failed to perform forward FFT"

/-- Modelled from the spec: `ifft.process(&mut spectrum, &mut out_window)`
(mod.rs lines 134-137) — fails iff the input buffer is not
`window_size/2 + 1` long or the output buffer is not `window_size` long. -/
def invProcess (t : Transform) (input : List Cq) (output : List ℚ) :
    Except String (List ℚ) :=
  if input.length = windowSize / 2 + 1 ∧ output.length = windowSize then
    Except.ok (t.inv input)
  else Except.error "Failed to perform inverse FFT"

/-- `let freq_per_bin = self.sample_rate as f32 / window_size as f32;`
(mod.rs line 73). -/
def freqPerBin (sampleRate : ℕ) : ℚ := (sampleRate : ℚ) / (windowSize : ℚ)

/-- `let low_bin = (low_cutoff / freq_per_bin) as usize;` (mod.rs lines
74-75).  Rust's `as usize` cast truncates toward zero and saturates below at
0; on every rational value this agrees with `⌊·⌋.toNat`. -/
def cutoffBin (sampleRate : ℕ) (cutoff : ℚ) : ℕ :=
  (⌊cutoff / freqPerBin sampleRate⌋).toNat

/-- The precomputed Hann coefficient table
`(0..window_size).map(|i| ...)` (mod.rs lines 92-94), over an abstract
coefficient function. -/
def hannWindow (hann : ℕ → ℚ) : List ℚ := (List.range windowSize).map hann

/-- The analysis window of one frame: `window.fill(0.0)` followed by
`window[i] = samples[chunk_start + i] * window_func[i]` for every
`i < window_size` with `chunk_start + i < samples.len()` (mod.rs lines
106-111). -/
def analysisWindow (samples w : List ℚ) (chunkStart : ℕ) : List ℚ :=
  (List.range windowSize).map fun i =>
    if chunkStart + i < samples.length then
      samples.getD (chunkStart + i) 0 * w.getD i 0
    else 0

/-- The masking loop (mod.rs lines 118-128): both spectra start as clones of
`spectrum`; then for each `i`, `if i < low_bin { high_spectrum[i] = 0 }
else if i > high_bin { low_spectrum[i] = 0 }`.  Returns
(low_spectrum, high_spectrum). -/
def applyMasks (lowBin highBin : ℕ) (spectrum : List Cq) : List Cq × List Cq :=
  ((List.range spectrum.length).map fun i =>
      if i < lowBin then spectrum.getD i (0, 0)
      else if i > highBin then (0, 0)
      else spectrum.getD i (0, 0),
   (List.range spectrum.length).map fun i =>
      if i < lowBin then (0, 0)
      else spectrum.getD i (0, 0))

/-- One step of the overlap-add loop (mod.rs lines 140-145): for index `i`,
if `chunk_start + i < samples.len()` then
`acc[chunk_start + i] += win[i] * window_func[i] / window_size as f32`. -/
def oaStep (samplesLen : ℕ) (win w : List ℚ) (chunkStart : ℕ)
    (a : List ℚ) (i : ℕ) : List ℚ :=
  if chunkStart + i < samplesLen then
    a.set (chunkStart + i)
      (a.getD (chunkStart + i) 0 + win.getD i 0 * w.getD i 0 / (windowSize : ℚ))
  else a

/-- The overlap-add loop `for i in 0..window_size { ... }` (mod.rs lines
140-145), accumulating into `acc` (whose length is `samples.len()` at every
call site: the accumulators are allocated at the input length and never
resized). -/
def overlapAdd (samplesLen : ℕ) (acc win w : List ℚ) (chunkStart : ℕ) :
    List ℚ :=
  (List.range windowSize).foldl (oaStep samplesLen win w chunkStart) acc

/-- The state threaded through the frame loop: the two output accumulators
(mod.rs lines 86-87) and the reused spectrum buffer (mod.rs line 89). -/
structure SepState where
  lowFreq : List ℚ
  highFreq : List ℚ
  spectrum : List Cq

/-- The accumulators and spectrum buffer as allocated before the loop
(mod.rs lines 86-89): zero vectors of the input length, and a zero spectrum
of length `window_size/2 + 1`. -/
def initState (len : ℕ) : SepState :=
  ⟨List.replicate len 0, List.replicate len 0,
   List.replicate (windowSize / 2 + 1) (0, 0)⟩

/-- One iteration of the frame loop (mod.rs lines 99-146): build the
analysis window, forward transform (`?`-propagating failure), mask, inverse
transform both spectra into fresh zeroed buffers (`?`-propagating failure),
and overlap-add both result windows into the accumulators. -/
def processFrame (t : Transform) (w : List ℚ) (lowBin highBin : ℕ)
    (samples : List ℚ) (st : SepState) (chunkStart : ℕ) :
    Except String SepState := do
  let window := analysisWindow samples w chunkStart
  let spectrum ← fwdProcess t window st.spectrum
  let masked := applyMasks lowBin highBin spectrum
  let lowWindow ← invProcess t masked.1 (List.replicate windowSize 0)
  let highWindow ← invProcess t masked.2 (List.replicate windowSize 0)
  pure ⟨overlapAdd samples.length st.lowFreq lowWindow w chunkStart,
        overlapAdd samples.length st.highFreq highWindow w chunkStart,
        spectrum⟩

/-- The frame loop: process the chunk-start offsets in order, propagating
the first transform failure immediately (the `?` operator aborts the whole
function, returning no accumulators). -/
def runFrames (t : Transform) (w : List ℚ) (lowBin highBin : ℕ)
    (samples : List ℚ) : SepState → List ℕ → Except String SepState
  | st, [] => Except.ok st
  | st, cs :: rest =>
    match processFrame t w lowBin highBin samples st cs with
    | Except.ok st' => runFrames t w lowBin highBin samples st' rest
    | Except.error e => Except.error e

/-- The chunk-start offsets of `(start..stop).step_by(overlap)`: `start`,
`start + overlap`, `start + 2*overlap`, ... while below `stop`. -/
def chunkStartsFrom (stop start : ℕ) : List ℕ :=
  if h : start < stop then start :: chunkStartsFrom stop (start + overlap)
  else []
termination_by stop - start
decreasing_by
  have hov : 0 < overlap := by decide
  omega

/-- `for chunk_start in (0..samples.len()).step_by(overlap)` (mod.rs
line 99). -/
def chunkStarts (len : ℕ) : List ℕ := chunkStartsFrom len 0

/-- `separate_frequencies` (mod.rs lines 67-150), parametric in the sample
rate field (always 44100 in the running program), the Hann coefficient
function and the planned transform pair. -/
def separate_frequencies (sampleRate : ℕ) (hann : ℕ → ℚ) (t : Transform)
    (samples : List ℚ) (lowCutoff highCutoff : ℚ) :
    Except String (List ℚ × List ℚ) :=
  let lowBin := cutoffBin sampleRate lowCutoff
  let highBin := cutoffBin sampleRate highCutoff
  let windowFunc := hannWindow hann
  match runFrames t windowFunc lowBin highBin samples
      (initState samples.length) (chunkStarts samples.length) with
  | Except.ok st => Except.ok (st.lowFreq, st.highFreq)
  | Except.error e => Except.error e

/-- `load_audio` (mod.rs lines 23-40): the decoder (external; modelled as
the list of successfully decoded frames, each a list of `i16` samples
represented as integers) is drained frame by frame, and each frame's data is
appended after the conversion `s as f32 / 32768.0` (exact in `ℚ`: an `i16`
converts to `f32` exactly and dividing by the power of two 32768 is
exact). -/
def load_audio (frames : List (List ℤ)) : List ℚ :=
  frames.foldl
    (fun samples data => samples ++ data.map fun s : ℤ => (s : ℚ) / 32768) []

/-- `self.sample_rate` as set by `AudioProcessor::new()` (mod.rs line 18). -/
def defaultSampleRate : ℕ := 44100

/-- The externally visible effects `main` can perform, in program order
(main.rs lines 41-85).  Logging the missing-input error is recorded too,
so that the missing-input branch is observable. -/
inductive MainAction where
  | logInputMissing
  | createOutputDir
  | loadAudio
  | separate
  | saveLow
  | saveHigh
deriving DecidableEq

/-- Modelled from the spec: the environment `main` runs against — the
filesystem checks `cli.input.exists()` / `cli.output.exists()`, the result
of `create_dir_all`, the decoder's output (`load_audio`, which can fail on
an unreadable file), and the two `save_audio` results of the external
encoder.  These collaborators are external to the core (spec §2, §6). -/
structure World where
  inputExists : Bool
  outputExists : Bool
  createDirResult : Except String Unit
  loadResult : Except String (List ℚ)
  saveLowResult : Except String Unit
  saveHighResult : Except String Unit

/-- `main` (main.rs lines 28-87): verify the input exists (logging and
returning `Ok(())` when it does not), create the output directory if
absent, load, separate with the default processor parameters, and save both
bands; every later failure propagates as an error.  Returns the process
result and the trace of performed effects. -/
def mainRun (w : World) (lowCutoff highCutoff : ℚ) (t : Transform)
    (hann : ℕ → ℚ) : Except String Unit × List MainAction :=
  if w.inputExists = false then
    (Except.ok (), [MainAction.logInputMissing])
  else
    let dirStep : Except String Unit × List MainAction :=
      if w.outputExists = false then (w.createDirResult, [MainAction.createOutputDir])
      else (Except.ok (), [])
    match dirStep with
    | (Except.error e, acts) => (Except.error e, acts)
    | (Except.ok _, acts) =>
      match w.loadResult with
      | Except.error e => (Except.error e, acts ++ [MainAction.loadAudio])
      | Except.ok samples =>
        match separate_frequencies defaultSampleRate hann t samples
            lowCutoff highCutoff with
        | Except.error e =>
          (Except.error e, acts ++ [MainAction.loadAudio, MainAction.separate])
        | Except.ok _ =>
          match w.saveLowResult with
          | Except.error e =>
            (Except.error e,
             acts ++ [MainAction.loadAudio, MainAction.separate, MainAction.saveLow])
          | Except.ok _ =>
            match w.saveHighResult with
            | Except.error e =>
              (Except.error e,
               acts ++ [MainAction.loadAudio, MainAction.separate,
                        MainAction.saveLow, MainAction.saveHigh])
            | Except.ok _ =>
              (Except.ok (),
               acts ++ [MainAction.loadAudio, MainAction.separate,
                        MainAction.saveLow, MainAction.saveHigh])

/-- A concrete transform plan used to instantiate the theorems below at
concrete inputs: it maps every buffer to the zero buffer of the planned
output length (a legal plan: it satisfies the length contract and sends
zero to zero). -/
def zeroTransform : Transform where
  fwd := fun _ => List.replicate (windowSize / 2 + 1) (0, 0)
  inv := fun _ => List.replicate windowSize 0
  fwd_length := fun _ => List.length_replicate _ _
  inv_length := fun _ => List.length_replicate _ _

/-- A concrete environment whose input file is missing. -/
def missingInputWorld : World :=
  ⟨false, false, Except.ok (), Except.ok [], Except.ok (), Except.ok ()⟩

/-! ### The parameter values

`windowSize` and `overlap` are made irreducible from here on (their values
are only ever needed through the lemmas below); this keeps the elaborator
from expanding `List.range windowSize` into a 2048-element literal during
unification. -/

lemma windowSize_eq : windowSize = 2048 := rfl

lemma overlap_eq : overlap = 1024 := rfl

lemma overlap_eq_half_windowSize : overlap = windowSize / 2 := rfl

attribute [irreducible] windowSize overlap

lemma windowSize_pos : 0 < windowSize := by rw [windowSize_eq]; omega

lemma overlap_pos : 0 < overlap := by rw [overlap_eq]; omega

/-! ### Basic list helpers -/

lemma getD_map_range {α : Type} (f : ℕ → α) (d : α) {n i : ℕ} (hi : i < n) :
    ((List.range n).map f).getD i d = f i := by
  rw [List.getD_eq_getElem?_getD, List.getElem?_map, List.getElem?_range hi]
  rfl

lemma getD_replicate {α : Type} (a d : α) {n i : ℕ} (hi : i < n) :
    (List.replicate n a).getD i d = a := by
  rw [List.getD_eq_getElem?_getD]
  simp [List.getElem?_replicate, hi]

lemma set_getD_self (l : List ℚ) (j : ℕ) : l.set j (l.getD j 0) = l := by
  apply List.ext_getElem?
  intro n
  rcases eq_or_ne j n with rfl | hne
  · rcases lt_or_le j l.length with hj | hj
    · rw [List.getElem?_set_self (by exact hj),
        List.getD_eq_getElem?_getD, List.getElem?_eq_getElem hj]
      rfl
    · rw [List.getElem?_eq_none (by simpa using hj), List.getElem?_eq_none]
      simpa using hj
  · exact List.getElem?_set_ne hne

/-! ### Characterizations of the frame-level pieces -/

lemma hannWindow_length (hann : ℕ → ℚ) : (hannWindow hann).length = windowSize := by
  simp [hannWindow]

lemma hannWindow_getD (hann : ℕ → ℚ) {i : ℕ} (hi : i < windowSize) :
    (hannWindow hann).getD i 0 = hann i :=
  getD_map_range hann 0 hi

lemma analysisWindow_length (samples w : List ℚ) (cs : ℕ) :
    (analysisWindow samples w cs).length = windowSize := by
  simp [analysisWindow]

lemma analysisWindow_getD (samples w : List ℚ) (cs : ℕ) {i : ℕ}
    (hi : i < windowSize) :
    (analysisWindow samples w cs).getD i 0 =
      if cs + i < samples.length then samples.getD (cs + i) 0 * w.getD i 0
      else 0 :=
  getD_map_range _ 0 hi

lemma applyMasks_low_length (lowBin highBin : ℕ) (spectrum : List Cq) :
    (applyMasks lowBin highBin spectrum).1.length = spectrum.length := by
  simp [applyMasks]

lemma applyMasks_high_length (lowBin highBin : ℕ) (spectrum : List Cq) :
    (applyMasks lowBin highBin spectrum).2.length = spectrum.length := by
  simp [applyMasks]

lemma applyMasks_low_getD (lowBin highBin : ℕ) (spectrum : List Cq) {i : ℕ}
    (hi : i < spectrum.length) :
    (applyMasks lowBin highBin spectrum).1.getD i (0, 0) =
      if i < lowBin then spectrum.getD i (0, 0)
      else if i > highBin then (0, 0)
      else spectrum.getD i (0, 0) :=
  getD_map_range _ (0, 0) hi

lemma applyMasks_high_getD (lowBin highBin : ℕ) (spectrum : List Cq) {i : ℕ}
    (hi : i < spectrum.length) :
    (applyMasks lowBin highBin spectrum).2.getD i (0, 0) =
      if i < lowBin then (0, 0) else spectrum.getD i (0, 0) :=
  getD_map_range _ (0, 0) hi

/-! ### The overlap-add loop -/

lemma getD_set_self (l : List ℚ) (j : ℕ) (v : ℚ) (h : j < l.length) :
    (l.set j v).getD j 0 = v := by
  rw [List.getD_eq_getElem?_getD, List.getElem?_set_self h]
  rfl

lemma getD_set_ne (l : List ℚ) (i j : ℕ) (v : ℚ) (h : i ≠ j) :
    (l.set i v).getD j 0 = l.getD j 0 := by
  rw [List.getD_eq_getElem?_getD, List.getElem?_set_ne h,
    List.getD_eq_getElem?_getD]

lemma oaStep_length (len : ℕ) (win w : List ℚ) (cs : ℕ) (a : List ℚ) (i : ℕ) :
    (oaStep len win w cs a i).length = a.length := by
  unfold oaStep
  split <;> simp

lemma foldl_oaStep_length (len : ℕ) (win w : List ℚ) (cs : ℕ) (l : List ℕ) :
    ∀ a : List ℚ, (l.foldl (oaStep len win w cs) a).length = a.length := by
  induction l with
  | nil => intro a; rfl
  | cons x xs ih =>
    intro a
    rw [List.foldl_cons, ih, oaStep_length]

lemma overlapAdd_length (len : ℕ) (acc win w : List ℚ) (cs : ℕ) :
    (overlapAdd len acc win w cs).length = acc.length :=
  foldl_oaStep_length len win w cs _ acc

lemma foldl_oaStep_getD (len : ℕ) (win w : List ℚ) (cs : ℕ) :
    ∀ (n : ℕ) (acc : List ℚ) (j : ℕ), acc.length = len →
      ((List.range n).foldl (oaStep len win w cs) acc).getD j 0 =
        if cs ≤ j ∧ j < cs + n ∧ j < len then
          acc.getD j 0 + win.getD (j - cs) 0 * w.getD (j - cs) 0 / (windowSize : ℚ)
        else acc.getD j 0 := by
  intro n
  induction n with
  | zero =>
    intro acc j _
    rw [if_neg (by omega)]
    rfl
  | succ n ih =>
    intro acc j hlen
    rw [List.range_succ, List.foldl_append]
    set F := (List.range n).foldl (oaStep len win w cs) acc with hF
    have hFlen : F.length = len := by rw [hF, foldl_oaStep_length, hlen]
    have hFj := ih acc j hlen
    simp only [List.foldl_cons, List.foldl_nil]
    unfold oaStep
    by_cases hlt : cs + n < len
    · rw [if_pos hlt]
      rcases eq_or_ne j (cs + n) with rfl | hne
      · have hb : cs + n < F.length := by omega
        rw [getD_set_self F (cs + n) _ hb, hFj,
          if_neg (show ¬(cs ≤ cs + n ∧ cs + n < cs + n ∧ cs + n < len) from by omega),
          if_pos (show cs ≤ cs + n ∧ cs + n < cs + (n + 1) ∧ cs + n < len from by omega),
          show cs + n - cs = n from by omega]
      · rw [getD_set_ne F (cs + n) j _ (Ne.symm hne), hFj]
        by_cases hcond : cs ≤ j ∧ j < cs + n ∧ j < len
        · rw [if_pos hcond,
            if_pos (show cs ≤ j ∧ j < cs + (n + 1) ∧ j < len from by omega)]
        · rw [if_neg hcond,
            if_neg (show ¬(cs ≤ j ∧ j < cs + (n + 1) ∧ j < len) from by omega)]
    · rw [if_neg hlt, hFj]
      by_cases hcond : cs ≤ j ∧ j < cs + n ∧ j < len
      · rw [if_pos hcond,
          if_pos (show cs ≤ j ∧ j < cs + (n + 1) ∧ j < len from by omega)]
      · rw [if_neg hcond,
          if_neg (show ¬(cs ≤ j ∧ j < cs + (n + 1) ∧ j < len) from by omega)]

/-- The in-range overlap-add contribution: position `chunk_start + i`
receives exactly one new term. -/
lemma overlapAdd_getD_in (len : ℕ) (acc win w : List ℚ) (cs i : ℕ)
    (hlen : acc.length = len) (hi : i < windowSize) (hin : cs + i < len) :
    (overlapAdd len acc win w cs).getD (cs + i) 0 =
      acc.getD (cs + i) 0 + win.getD i 0 * w.getD i 0 / (windowSize : ℚ) := by
  rw [overlapAdd, foldl_oaStep_getD len win w cs windowSize acc (cs + i) hlen,
    if_pos (show cs ≤ cs + i ∧ cs + i < cs + windowSize ∧ cs + i < len from by omega),
    show cs + i - cs = i from by omega]

lemma oaStep_zero (len : ℕ) (win w : List ℚ) (cs : ℕ) (a : List ℚ) (i : ℕ)
    (hwin : win.getD i 0 = 0) : oaStep len win w cs a i = a := by
  unfold oaStep
  split
  · rw [hwin, zero_mul, zero_div, add_zero, set_getD_self]
  · rfl

lemma foldl_id {α β : Type} (f : α → β → α) (l : List β) (a : α)
    (h : ∀ x ∈ l, ∀ b : α, f b x = b) : l.foldl f a = a := by
  induction l generalizing a with
  | nil => rfl
  | cons x xs ih =>
    rw [List.foldl_cons, h x (by simp)]
    exact ih a fun y hy b => h y (by simp [hy]) b

/-- Overlap-adding an all-zero window leaves the accumulator unchanged. -/
lemma overlapAdd_zero (len : ℕ) (acc w : List ℚ) (cs : ℕ) (win : List ℚ)
    (hwin : ∀ i, win.getD i 0 = 0) :
    overlapAdd len acc win w cs = acc := by
  unfold overlapAdd
  exact foldl_id _ _ _ fun x _ b => oaStep_zero len win w cs b x (hwin x)

/-! ### Except plumbing -/

lemma bind_ok {α β : Type} (a : α) (f : α → Except String β) :
    (Except.ok a : Except String α) >>= f = f a := rfl

lemma bind_error {α β : Type} (e : String) (f : α → Except String β) :
    (Except.error e : Except String α) >>= f = Except.error e := rfl

lemma pure_eq_ok {α : Type} (a : α) :
    (pure a : Except String α) = Except.ok a := rfl

/-! ### The chunk-start offsets -/

lemma mem_chunkStartsFrom (stop start c : ℕ) :
    c ∈ chunkStartsFrom stop start ↔
      start ≤ c ∧ c < stop ∧ ∃ k, c = start + k * overlap := by
  rw [chunkStartsFrom]
  by_cases h : start < stop
  · rw [dif_pos h]
    constructor
    · intro hmem
      rcases List.mem_cons.1 hmem with rfl | hmem'
      · exact ⟨le_rfl, h, 0, by omega⟩
      · obtain ⟨h1, h2, k, hk⟩ := (mem_chunkStartsFrom stop (start + overlap) c).1 hmem'
        refine ⟨by omega, h2, k + 1, ?_⟩
        rw [Nat.succ_mul]
        omega
    · rintro ⟨h1, h2, k, rfl⟩
      rcases Nat.eq_zero_or_pos k with rfl | hk
      · simp
      · apply List.mem_cons_of_mem
        apply (mem_chunkStartsFrom stop (start + overlap) _).2
        have hmul : k * overlap = (k - 1) * overlap + overlap := by
          have hk1 : k - 1 + 1 = k := by omega
          calc k * overlap = (k - 1 + 1) * overlap := by rw [hk1]
            _ = (k - 1) * overlap + overlap := Nat.succ_mul _ _
        exact ⟨by omega, h2, k - 1, by omega⟩
  · rw [dif_neg h]
    simp only [List.not_mem_nil, false_iff, not_and]
    intro h1 h2
    omega
termination_by stop - start
decreasing_by
  all_goals
    have hov : 0 < overlap := overlap_pos
    omega

/-- The offsets visited by the frame loop are exactly the multiples of the
hop size below the signal length. -/
lemma mem_chunkStarts (len c : ℕ) :
    c ∈ chunkStarts len ↔ c < len ∧ ∃ k, c = k * overlap := by
  rw [chunkStarts, mem_chunkStartsFrom]
  constructor
  · rintro ⟨_, h2, k, hk⟩
    exact ⟨h2, k, by omega⟩
  · rintro ⟨h2, k, hk⟩
    exact ⟨Nat.zero_le c, h2, k, by omega⟩

/-! ### The frame step -/

/-- When the spectrum buffer has the planned length, a frame step succeeds
and produces exactly the overlap-added accumulators and the fresh
spectrum. -/
lemma processFrame_eq (t : Transform) (w : List ℚ) (lb hb : ℕ)
    (samples : List ℚ) (st : SepState) (cs : ℕ)
    (hsp : st.spectrum.length = windowSize / 2 + 1) :
    processFrame t w lb hb samples st cs =
      Except.ok
        ⟨overlapAdd samples.length st.lowFreq
            (t.inv (applyMasks lb hb (t.fwd (analysisWindow samples w cs))).1) w cs,
         overlapAdd samples.length st.highFreq
            (t.inv (applyMasks lb hb (t.fwd (analysisWindow samples w cs))).2) w cs,
         t.fwd (analysisWindow samples w cs)⟩ := by
  have h1 : fwdProcess t (analysisWindow samples w cs) st.spectrum
      = Except.ok (t.fwd (analysisWindow samples w cs)) := by
    unfold fwdProcess
    rw [if_pos ⟨analysisWindow_length samples w cs, hsp⟩]
  have h2 : invProcess t (applyMasks lb hb (t.fwd (analysisWindow samples w cs))).1
      (List.replicate windowSize 0)
      = Except.ok (t.inv (applyMasks lb hb (t.fwd (analysisWindow samples w cs))).1) := by
    unfold invProcess
    rw [if_pos ⟨by rw [applyMasks_low_length, t.fwd_length], by simp⟩]
  have h3 : invProcess t (applyMasks lb hb (t.fwd (analysisWindow samples w cs))).2
      (List.replicate windowSize 0)
      = Except.ok (t.inv (applyMasks lb hb (t.fwd (analysisWindow samples w cs))).2) := by
    unfold invProcess
    rw [if_pos ⟨by rw [applyMasks_high_length, t.fwd_length], by simp⟩]
  simp only [processFrame, h1, h2, h3, bind_ok, pure_eq_ok]

/-- A successful frame step preserves the lengths of both accumulators. -/
lemma processFrame_lengths (t : Transform) (w : List ℚ) (lb hb : ℕ)
    (samples : List ℚ) (st : SepState) (cs : ℕ) (st' : SepState)
    (h : processFrame t w lb hb samples st cs = Except.ok st') :
    st'.lowFreq.length = st.lowFreq.length ∧
      st'.highFreq.length = st.highFreq.length := by
  simp only [processFrame] at h
  cases hf : fwdProcess t (analysisWindow samples w cs) st.spectrum with
  | error e => rw [hf, bind_error] at h; cases h
  | ok spec =>
    rw [hf, bind_ok] at h
    cases hl : invProcess t (applyMasks lb hb spec).1 (List.replicate windowSize 0) with
    | error e => rw [hl, bind_error] at h; cases h
    | ok lw =>
      rw [hl, bind_ok] at h
      cases hh : invProcess t (applyMasks lb hb spec).2 (List.replicate windowSize 0) with
      | error e => rw [hh, bind_error] at h; cases h
      | ok hw =>
        rw [hh, bind_ok, pure_eq_ok, Except.ok.injEq] at h
        subst h
        exact ⟨overlapAdd_length samples.length st.lowFreq lw w cs,
          overlapAdd_length samples.length st.highFreq hw w cs⟩

/-- A frame step fails exactly when the forward transform of its window or
one of the two inverse transforms of its masked spectra fails, and the
failure is returned unchanged. -/
lemma processFrame_error_iff (t : Transform) (w : List ℚ) (lb hb : ℕ)
    (samples : List ℚ) (st : SepState) (cs : ℕ) (e : String) :
    processFrame t w lb hb samples st cs = Except.error e ↔
      (fwdProcess t (analysisWindow samples w cs) st.spectrum = Except.error e ∨
       ∃ spec, fwdProcess t (analysisWindow samples w cs) st.spectrum = Except.ok spec ∧
         (invProcess t (applyMasks lb hb spec).1 (List.replicate windowSize 0)
             = Except.error e ∨
          ∃ lw, invProcess t (applyMasks lb hb spec).1 (List.replicate windowSize 0)
              = Except.ok lw ∧
            invProcess t (applyMasks lb hb spec).2 (List.replicate windowSize 0)
              = Except.error e)) := by
  unfold processFrame
  cases hf : fwdProcess t (analysisWindow samples w cs) st.spectrum with
  | error e' => simp [bind_error, hf]
  | ok spec =>
    simp only [bind_ok, hf, Except.ok.injEq, false_or]
    cases hl : invProcess t (applyMasks lb hb spec).1 (List.replicate windowSize 0) with
    | error e' => simp [bind_error, hl]
    | ok lw =>
      simp only [bind_ok, hl, Except.ok.injEq, false_or]
      cases hh : invProcess t (applyMasks lb hb spec).2 (List.replicate windowSize 0) with
      | error e' => simp [bind_error, hl, hh]
      | ok hw => simp [bind_ok, hl, hh, pure_eq_ok]

/-! ### The frame loop -/

lemma runFrames_nil (t : Transform) (w : List ℚ) (lb hb : ℕ)
    (samples : List ℚ) (st : SepState) :
    runFrames t w lb hb samples st [] = Except.ok st := rfl

lemma runFrames_cons (t : Transform) (w : List ℚ) (lb hb : ℕ)
    (samples : List ℚ) (st : SepState) (cs : ℕ) (rest : List ℕ) :
    runFrames t w lb hb samples st (cs :: rest) =
      match processFrame t w lb hb samples st cs with
      | Except.ok st' => runFrames t w lb hb samples st' rest
      | Except.error e => Except.error e := by
  rw [runFrames]

/-- As long as the spectrum buffer has the planned length, the whole frame
loop succeeds and preserves the accumulator lengths and the spectrum-buffer
length. -/
lemma runFrames_ok (t : Transform) (w : List ℚ) (lb hb : ℕ)
    (samples : List ℚ) :
    ∀ (l : List ℕ) (st : SepState),
      st.spectrum.length = windowSize / 2 + 1 →
      ∃ st', runFrames t w lb hb samples st l = Except.ok st' ∧
        st'.spectrum.length = windowSize / 2 + 1 ∧
        st'.lowFreq.length = st.lowFreq.length ∧
        st'.highFreq.length = st.highFreq.length := by
  intro l
  induction l with
  | nil => intro st h; exact ⟨st, rfl, h, rfl, rfl⟩
  | cons cs rest ih =>
    intro st h
    rw [runFrames_cons, processFrame_eq t w lb hb samples st cs h]
    obtain ⟨st', h', hsp, hl, hh⟩ :=
      ih ⟨overlapAdd samples.length st.lowFreq
            (t.inv (applyMasks lb hb (t.fwd (analysisWindow samples w cs))).1) w cs,
          overlapAdd samples.length st.highFreq
            (t.inv (applyMasks lb hb (t.fwd (analysisWindow samples w cs))).2) w cs,
          t.fwd (analysisWindow samples w cs)⟩
        (t.fwd_length _)
    refine ⟨st', h', hsp, ?_, ?_⟩
    · rw [hl]; exact overlapAdd_length _ _ _ _ _
    · rw [hh]; exact overlapAdd_length _ _ _ _ _

/-- A successful frame loop preserves the accumulator lengths. -/
lemma runFrames_lengths (t : Transform) (w : List ℚ) (lb hb : ℕ)
    (samples : List ℚ) :
    ∀ (l : List ℕ) (st st' : SepState),
      runFrames t w lb hb samples st l = Except.ok st' →
      st'.lowFreq.length = st.lowFreq.length ∧
        st'.highFreq.length = st.highFreq.length := by
  intro l
  induction l with
  | nil =>
    intro st st' h
    rw [runFrames_nil, Except.ok.injEq] at h
    subst h
    exact ⟨rfl, rfl⟩
  | cons cs rest ih =>
    intro st st' h
    rw [runFrames_cons] at h
    cases hp : processFrame t w lb hb samples st cs with
    | error e => rw [hp] at h; cases h
    | ok st1 =>
      rw [hp] at h
      obtain ⟨hl, hh⟩ := ih st1 st' h
      obtain ⟨hl', hh'⟩ := processFrame_lengths t w lb hb samples st cs st1 hp
      exact ⟨hl.trans hl', hh.trans hh'⟩

/-- The frame loop fails exactly when, after some successfully processed
prefix of the offsets, the next frame's step fails; the error is propagated
unchanged and the remaining offsets are never reached. -/
lemma runFrames_error_iff (t : Transform) (w : List ℚ) (lb hb : ℕ)
    (samples : List ℚ) :
    ∀ (l : List ℕ) (st : SepState) (e : String),
      runFrames t w lb hb samples st l = Except.error e ↔
        ∃ l1 cs l2 st', l = l1 ++ cs :: l2 ∧
          runFrames t w lb hb samples st l1 = Except.ok st' ∧
          processFrame t w lb hb samples st' cs = Except.error e := by
  intro l
  induction l with
  | nil =>
    intro st e
    constructor
    · intro h; cases h
    · rintro ⟨l1, cs, l2, st', hdec, -, -⟩
      exact absurd hdec (by simp)
  | cons cs0 rest ih =>
    intro st e
    rw [runFrames_cons]
    cases hp : processFrame t w lb hb samples st cs0 with
    | error e0 =>
      constructor
      · intro h
        rw [Except.error.injEq] at h
        subst h
        exact ⟨[], cs0, rest, st, rfl, runFrames_nil t w lb hb samples st, hp⟩
      · rintro ⟨l1, cs, l2, st', hdec, hrun, herr⟩
        cases l1 with
        | nil =>
          rw [List.nil_append] at hdec
          injection hdec with h1 h2
          subst h1; subst h2
          rw [runFrames_nil, Except.ok.injEq] at hrun
          subst hrun
          rw [hp] at herr
          rw [Except.error.injEq] at herr
          rw [herr]
        | cons a l1' =>
          rw [List.cons_append] at hdec
          injection hdec with h1 h2
          subst h1
          rw [runFrames_cons, hp] at hrun
          cases hrun
    | ok st1 =>
      constructor
      · intro h
        obtain ⟨l1, cs, l2, st', hdec, hrun, herr⟩ := (ih st1 e).1 h
        refine ⟨cs0 :: l1, cs, l2, st', by rw [hdec, List.cons_append], ?_, herr⟩
        rw [runFrames_cons, hp]
        exact hrun
      · rintro ⟨l1, cs, l2, st', hdec, hrun, herr⟩
        cases l1 with
        | nil =>
          rw [List.nil_append] at hdec
          injection hdec with h1 h2
          subst h1; subst h2
          rw [runFrames_nil, Except.ok.injEq] at hrun
          subst hrun
          rw [hp] at herr
          cases herr
        | cons a l1' =>
          rw [List.cons_append] at hdec
          injection hdec with h1 h2
          subst h1; subst h2
          rw [runFrames_cons, hp] at hrun
          exact (ih st1 e).2 ⟨l1', cs, l2, st', rfl, hrun, herr⟩

/-! ### The all-zero input -/

lemma getD_replicate_zero (n i : ℕ) :
    (List.replicate n (0 : ℚ)).getD i 0 = 0 := by
  rcases lt_or_le i n with h | h
  · exact getD_replicate 0 0 h
  · rw [List.getD_eq_getElem?_getD, List.getElem?_eq_none (by simpa using h)]
    rfl

lemma analysisWindow_zero (L : ℕ) (w : List ℚ) (cs : ℕ) :
    analysisWindow (List.replicate L 0) w cs = List.replicate windowSize 0 := by
  rw [analysisWindow]
  apply List.eq_replicate_iff.2
  refine ⟨by simp, ?_⟩
  intro b hb
  obtain ⟨i, _, rfl⟩ := List.mem_map.1 hb
  by_cases hc : cs + i < (List.replicate L (0 : ℚ)).length
  · rw [if_pos hc, getD_replicate_zero, zero_mul]
  · rw [if_neg hc]

lemma applyMasks_zero_low (lb hb m : ℕ) :
    (applyMasks lb hb (List.replicate m ((0 : ℚ), (0 : ℚ)))).1 =
      List.replicate m (0, 0) := by
  rw [applyMasks]
  apply List.eq_replicate_iff.2
  refine ⟨by simp, ?_⟩
  intro b hb'
  obtain ⟨i, hi, rfl⟩ := List.mem_map.1 hb'
  rw [List.mem_range, List.length_replicate] at hi
  rw [getD_replicate (0, 0) (0, 0) hi]
  split
  · rfl
  · split <;> rfl

lemma applyMasks_zero_high (lb hb m : ℕ) :
    (applyMasks lb hb (List.replicate m ((0 : ℚ), (0 : ℚ)))).2 =
      List.replicate m (0, 0) := by
  rw [applyMasks]
  apply List.eq_replicate_iff.2
  refine ⟨by simp, ?_⟩
  intro b hb'
  obtain ⟨i, hi, rfl⟩ := List.mem_map.1 hb'
  rw [List.mem_range, List.length_replicate] at hi
  rw [getD_replicate (0, 0) (0, 0) hi]
  split <;> rfl

/-- On an all-zero input (with a transform pair that maps zero buffers to
zero buffers, as any Fourier pair does), every frame step maps the all-zero
state to itself. -/
lemma processFrame_zero (t : Transform) (w : List ℚ) (lb hb L cs : ℕ)
    (hfwd : t.fwd (List.replicate windowSize 0)
      = List.replicate (windowSize / 2 + 1) (0, 0))
    (hinv : t.inv (List.replicate (windowSize / 2 + 1) (0, 0))
      = List.replicate windowSize 0) :
    processFrame t w lb hb (List.replicate L 0) (initState L) cs =
      Except.ok (initState L) := by
  rw [processFrame_eq t w lb hb (List.replicate L 0) (initState L) cs
      (by rw [initState]; exact List.length_replicate _ _),
    analysisWindow_zero L w cs, hfwd, applyMasks_zero_low, applyMasks_zero_high,
    hinv, overlapAdd_zero _ _ _ _ _ (getD_replicate_zero windowSize),
    overlapAdd_zero _ _ _ _ _ (getD_replicate_zero windowSize)]
  rfl

/-- On an all-zero input the frame loop leaves the all-zero state fixed. -/
lemma runFrames_zero (t : Transform) (w : List ℚ) (lb hb L : ℕ)
    (hfwd : t.fwd (List.replicate windowSize 0)
      = List.replicate (windowSize / 2 + 1) (0, 0))
    (hinv : t.inv (List.replicate (windowSize / 2 + 1) (0, 0))
      = List.replicate windowSize 0) :
    ∀ l : List ℕ,
      runFrames t w lb hb (List.replicate L 0) (initState L) l =
        Except.ok (initState L) := by
  intro l
  induction l with
  | nil => exact runFrames_nil t w lb hb _ _
  | cons cs rest ih =>
    rw [runFrames_cons, processFrame_zero t w lb hb L cs hfwd hinv]
    exact ih

/-! ### separate_frequencies, top level -/

/-- `separate_frequencies` always succeeds (claim C10 precursor): the
buffers handed to all transform calls always have the planned lengths. -/
lemma separate_frequencies_total (sr : ℕ) (hann : ℕ → ℚ) (t : Transform)
    (samples : List ℚ) (lc hc : ℚ) :
    ∃ st, runFrames t (hannWindow hann) (cutoffBin sr lc) (cutoffBin sr hc)
        samples (initState samples.length) (chunkStarts samples.length)
        = Except.ok st ∧
      separate_frequencies sr hann t samples lc hc
        = Except.ok (st.lowFreq, st.highFreq) ∧
      st.lowFreq.length = samples.length ∧
      st.highFreq.length = samples.length := by
  obtain ⟨st, h, _, hl, hh⟩ :=
    runFrames_ok t (hannWindow hann) (cutoffBin sr lc) (cutoffBin sr hc)
      samples (chunkStarts samples.length) (initState samples.length)
      (by rw [initState]; exact List.length_replicate _ _)
  refine ⟨st, h, ?_, ?_, ?_⟩
  · simp only [separate_frequencies]
    rw [h]
  · rw [hl, initState]; exact List.length_replicate _ _
  · rw [hh, initState]; exact List.length_replicate _ _

/-- On an all-zero input, `separate_frequencies` returns all-zero bands. -/
lemma separate_frequencies_zero (sr L : ℕ) (hann : ℕ → ℚ) (t : Transform)
    (lc hc : ℚ)
    (hfwd : t.fwd (List.replicate windowSize 0)
      = List.replicate (windowSize / 2 + 1) (0, 0))
    (hinv : t.inv (List.replicate (windowSize / 2 + 1) (0, 0))
      = List.replicate windowSize 0) :
    separate_frequencies sr hann t (List.replicate L 0) lc hc =
      Except.ok (List.replicate L 0, List.replicate L 0) := by
  simp only [separate_frequencies]
  rw [List.length_replicate,
    runFrames_zero t (hannWindow hann) (cutoffBin sr lc) (cutoffBin sr hc) L
      hfwd hinv (chunkStarts L)]
  rfl

/-! ## The claims -/

/-- C1: for every input sample slice and any cutoff values,
`separate_frequencies` returns a low-band and a high-band output each of
length exactly the input length (the accumulators are allocated at the
input length and no operation changes their length). -/
theorem c1_output_lengths (sr : ℕ) (hann : ℕ → ℚ) (t : Transform)
    (samples : List ℚ) (lc hc : ℚ) (low high : List ℚ)
    (h : separate_frequencies sr hann t samples lc hc = Except.ok (low, high)) :
    low.length = samples.length ∧ high.length = samples.length := by
  obtain ⟨st, _, hsep, hl, hh⟩ := separate_frequencies_total sr hann t samples lc hc
  rw [hsep, Except.ok.injEq, Prod.mk.injEq] at h
  rw [← h.1, ← h.2]
  exact ⟨hl, hh⟩

/-- C1 witness: a concrete successful run. -/
theorem c1_output_lengths_witness :
    separate_frequencies 44100 (fun _ => 0) zeroTransform [] 200 2000
        = Except.ok ([], []) ∧
    ([] : List ℚ).length = ([] : List ℚ).length ∧
    ([] : List ℚ).length = ([] : List ℚ).length := by
  have h : separate_frequencies 44100 (fun _ => 0) zeroTransform [] 200 2000
      = Except.ok ([], []) := by
    have h0 := separate_frequencies_zero 44100 0 (fun _ => 0) zeroTransform
      200 2000 rfl rfl
    simpa using h0
  exact ⟨h, c1_output_lengths 44100 (fun _ => 0) zeroTransform [] 200 2000 [] [] h⟩

/-- C2 counterexample: the claim says every bin `i > high_bin` is zeroed in
the low spectrum, but the masking loop uses `else if`, so a bin that also
satisfies `i < low_bin` is left untouched.  With `low_bin = 5` and
`high_bin = 2` (reachable, e.g. from reversed cutoffs 110 Hz and 50 Hz at
the 44100 Hz sample rate used by the program), bin 3 exceeds `high_bin`
yet survives in the low spectrum. -/
theorem c2_mask_counterexample :
    cutoffBin 44100 110 = 5 ∧ cutoffBin 44100 50 = 2 ∧ (2 : ℕ) < 3 ∧
    (applyMasks 5 2 (List.replicate 6 ((1 : ℚ), (0 : ℚ)))).1.getD 3 (0, 0)
      = (1, 0) := by
  refine ⟨?_, ?_, by omega, by decide⟩
  · rw [cutoffBin, freqPerBin, windowSize_eq]
    norm_num
    decide
  · rw [cutoffBin, freqPerBin, windowSize_eq]
    norm_num
    decide

/-- C2 (amended): in every frame, for each spectrum bin index `i`: if
`i < low_bin` then `high_spectrum[i]` is zeroed, and if `i > high_bin`
**and `i ≥ low_bin`** then `low_spectrum[i]` is zeroed (the source's
`else if` skips the low-side zeroing when `i < low_bin`; when
`low_bin ≤ high_bin`, as holds for all sane cutoff pairs, this is the
original claim); every bin with `low_bin ≤ i ≤ high_bin` is retained
unmodified in both spectra. -/
theorem c2_mask_amended (lb hb : ℕ) (spectrum : List Cq) (i : ℕ)
    (hi : i < spectrum.length) :
    (i < lb → (applyMasks lb hb spectrum).2.getD i (0, 0) = (0, 0)) ∧
    (lb ≤ i → hb < i → (applyMasks lb hb spectrum).1.getD i (0, 0) = (0, 0)) ∧
    (lb ≤ i → i ≤ hb →
      (applyMasks lb hb spectrum).1.getD i (0, 0) = spectrum.getD i (0, 0) ∧
      (applyMasks lb hb spectrum).2.getD i (0, 0) = spectrum.getD i (0, 0)) := by
  refine ⟨?_, ?_, ?_⟩
  · intro h
    rw [applyMasks_high_getD lb hb spectrum hi, if_pos h]
  · intro h1 h2
    rw [applyMasks_low_getD lb hb spectrum hi,
      if_neg (show ¬i < lb from by omega), if_pos h2]
  · intro h1 h2
    constructor
    · rw [applyMasks_low_getD lb hb spectrum hi,
        if_neg (show ¬i < lb from by omega),
        if_neg (show ¬i > hb from by omega)]
    · rw [applyMasks_high_getD lb hb spectrum hi,
        if_neg (show ¬i < lb from by omega)]

/-- C2 witness: the amended mask behaviour at a concrete spectrum. -/
theorem c2_mask_amended_witness :
    (1 : ℕ) < (List.replicate 4 ((7 : ℚ), (9 : ℚ))).length ∧
    ((1 < 1 →
        (applyMasks 1 2 (List.replicate 4 ((7 : ℚ), (9 : ℚ)))).2.getD 1 (0, 0)
          = (0, 0)) ∧
     (1 ≤ 1 → 2 < 1 →
        (applyMasks 1 2 (List.replicate 4 ((7 : ℚ), (9 : ℚ)))).1.getD 1 (0, 0)
          = (0, 0)) ∧
     (1 ≤ 1 → 1 ≤ 2 →
        (applyMasks 1 2 (List.replicate 4 ((7 : ℚ), (9 : ℚ)))).1.getD 1 (0, 0)
            = (List.replicate 4 ((7 : ℚ), (9 : ℚ))).getD 1 (0, 0) ∧
        (applyMasks 1 2 (List.replicate 4 ((7 : ℚ), (9 : ℚ)))).2.getD 1 (0, 0)
            = (List.replicate 4 ((7 : ℚ), (9 : ℚ))).getD 1 (0, 0))) :=
  ⟨by decide, c2_mask_amended 1 2 (List.replicate 4 ((7 : ℚ), (9 : ℚ))) 1 (by decide)⟩

/-- C5: with `window_size = 2048` and `freq_per_bin = sample_rate /
window_size`, `separate_frequencies` computes `low_bin = ⌊low_cutoff /
freq_per_bin⌋` and `high_bin = ⌊high_cutoff / freq_per_bin⌋` for every
cutoff pair in the sane range `0 ≤ low ≤ high ≤ sample_rate / 2`. -/
theorem c5_cutoff_bins (sr : ℕ) (lc hc : ℚ) (hsr : 0 < sr) (h0 : 0 ≤ lc)
    (h1 : lc ≤ hc) (h2 : hc ≤ (sr : ℚ) / 2) :
    windowSize = 2048 ∧
    freqPerBin sr = (sr : ℚ) / 2048 ∧
    (cutoffBin sr lc : ℤ) = ⌊lc / ((sr : ℚ) / 2048)⌋ ∧
    (cutoffBin sr hc : ℤ) = ⌊hc / ((sr : ℚ) / 2048)⌋ := by
  have hfpb : freqPerBin sr = (sr : ℚ) / 2048 := by
    rw [freqPerBin, windowSize_eq]
    norm_num
  have hpos : (0 : ℚ) < (sr : ℚ) / 2048 :=
    div_pos (by exact_mod_cast hsr) (by norm_num)
  refine ⟨windowSize_eq, hfpb, ?_, ?_⟩
  · rw [cutoffBin, hfpb]
    exact Int.toNat_of_nonneg (Int.floor_nonneg.2 (div_nonneg h0 hpos.le))
  · rw [cutoffBin, hfpb]
    exact Int.toNat_of_nonneg (Int.floor_nonneg.2 (div_nonneg (h0.trans h1) hpos.le))

/-- C5 witness: the program's own defaults, 200 Hz and 2000 Hz at
44100 Hz. -/
theorem c5_cutoff_bins_witness :
    0 < 44100 ∧ (0 : ℚ) ≤ 200 ∧ (200 : ℚ) ≤ 2000 ∧
      (2000 : ℚ) ≤ (44100 : ℚ) / 2 ∧
    (windowSize = 2048 ∧
     freqPerBin 44100 = (44100 : ℚ) / 2048 ∧
     (cutoffBin 44100 200 : ℤ) = ⌊(200 : ℚ) / ((44100 : ℚ) / 2048)⌋ ∧
     (cutoffBin 44100 2000 : ℤ) = ⌊(2000 : ℚ) / ((44100 : ℚ) / 2048)⌋) :=
  ⟨by norm_num, by norm_num, by norm_num, by norm_num,
   c5_cutoff_bins 44100 200 2000 (by norm_num) (by norm_num) (by norm_num)
     (by norm_num)⟩

lemma fwdProcess_ok (t : Transform) (input : List ℚ) (output spec : List Cq)
    (h : fwdProcess t input output = Except.ok spec) : spec = t.fwd input := by
  unfold fwdProcess at h
  split at h
  · rw [Except.ok.injEq] at h
    exact h.symm
  · cases h

lemma invProcess_ok (t : Transform) (input : List Cq) (output res : List ℚ)
    (h : invProcess t input output = Except.ok res) : res = t.inv input := by
  unfold invProcess at h
  split at h
  · rw [Except.ok.injEq] at h
    exact h.symm
  · cases h

/-- C3: in a successful frame step at offset `chunk_start`, for every
`i < window_size` with `chunk_start + i` inside the signal, the overlap-add
step adds exactly `low_window[i] * w[i] / window_size` to
`low_accumulator[chunk_start + i]` (and the same with the high window and
accumulator), where `low_window`/`high_window` are the inverse transforms of
the masked spectra of this frame's analysis window; the accumulators keep
the signal length, so indices at or past the signal end do not exist and
receive no contribution. -/
theorem c3_overlap_add_step (t : Transform) (w : List ℚ) (lb hb : ℕ)
    (samples : List ℚ) (st st' : SepState) (cs i : ℕ)
    (h : processFrame t w lb hb samples st cs = Except.ok st')
    (hlenL : st.lowFreq.length = samples.length)
    (hlenH : st.highFreq.length = samples.length)
    (hi : i < windowSize) (hin : cs + i < samples.length) :
    st'.lowFreq.getD (cs + i) 0 =
      st.lowFreq.getD (cs + i) 0 +
        (t.inv (applyMasks lb hb (t.fwd (analysisWindow samples w cs))).1).getD i 0
          * w.getD i 0 / (windowSize : ℚ) ∧
    st'.highFreq.getD (cs + i) 0 =
      st.highFreq.getD (cs + i) 0 +
        (t.inv (applyMasks lb hb (t.fwd (analysisWindow samples w cs))).2).getD i 0
          * w.getD i 0 / (windowSize : ℚ) ∧
    st'.lowFreq.length = samples.length ∧
    st'.highFreq.length = samples.length := by
  simp only [processFrame] at h
  cases hf : fwdProcess t (analysisWindow samples w cs) st.spectrum with
  | error e => rw [hf, bind_error] at h; cases h
  | ok spec =>
    rw [hf, bind_ok] at h
    cases hl : invProcess t (applyMasks lb hb spec).1 (List.replicate windowSize 0) with
    | error e => rw [hl, bind_error] at h; cases h
    | ok lw =>
      rw [hl, bind_ok] at h
      cases hh : invProcess t (applyMasks lb hb spec).2 (List.replicate windowSize 0) with
      | error e => rw [hh, bind_error] at h; cases h
      | ok hw =>
        rw [hh, bind_ok, pure_eq_ok, Except.ok.injEq] at h
        subst h
        obtain rfl : spec = t.fwd (analysisWindow samples w cs) :=
          fwdProcess_ok t _ _ _ hf
        obtain rfl : lw = t.inv (applyMasks lb hb (t.fwd (analysisWindow samples w cs))).1 :=
          invProcess_ok t _ _ _ hl
        obtain rfl : hw = t.inv (applyMasks lb hb (t.fwd (analysisWindow samples w cs))).2 :=
          invProcess_ok t _ _ _ hh
        refine ⟨?_, ?_, ?_, ?_⟩
        · exact overlapAdd_getD_in samples.length st.lowFreq _ w cs i hlenL hi hin
        · exact overlapAdd_getD_in samples.length st.highFreq _ w cs i hlenH hi hin
        · rw [overlapAdd_length]; exact hlenL
        · rw [overlapAdd_length]; exact hlenH

/-- C3 witness: a concrete successful frame step on a one-sample zero
signal. -/
theorem c3_overlap_add_step_witness :
    processFrame zeroTransform [] 0 0 (List.replicate 1 0) (initState 1) 0
        = Except.ok (initState 1) ∧
    (initState 1).lowFreq.length = (List.replicate 1 (0 : ℚ)).length ∧
    0 < windowSize ∧ 0 + 0 < (List.replicate 1 (0 : ℚ)).length ∧
    ((initState 1).lowFreq.getD (0 + 0) 0 =
       (initState 1).lowFreq.getD (0 + 0) 0 +
         (zeroTransform.inv (applyMasks 0 0 (zeroTransform.fwd
             (analysisWindow (List.replicate 1 0) [] 0))).1).getD 0 0
           * ([] : List ℚ).getD 0 0 / (windowSize : ℚ) ∧
     (initState 1).highFreq.getD (0 + 0) 0 =
       (initState 1).highFreq.getD (0 + 0) 0 +
         (zeroTransform.inv (applyMasks 0 0 (zeroTransform.fwd
             (analysisWindow (List.replicate 1 0) [] 0))).2).getD 0 0
           * ([] : List ℚ).getD 0 0 / (windowSize : ℚ) ∧
     (initState 1).lowFreq.length = (List.replicate 1 (0 : ℚ)).length ∧
     (initState 1).highFreq.length = (List.replicate 1 (0 : ℚ)).length) := by
  have h : processFrame zeroTransform [] 0 0 (List.replicate 1 0) (initState 1) 0
      = Except.ok (initState 1) :=
    processFrame_zero zeroTransform [] 0 0 1 0 rfl rfl
  exact ⟨h, rfl, windowSize_pos, by decide,
    c3_overlap_add_step zeroTransform [] 0 0 (List.replicate 1 0)
      (initState 1) (initState 1) 0 0 h rfl rfl windowSize_pos (by decide)⟩

/-- C4: the frame loop visits exactly the offsets `0, hop, 2·hop, ...`
below the signal length, with `hop = window_size / 2 = 1024`, and the
analysis window satisfies `window[i] = signal[chunk_start + i] * w[i]` when
`chunk_start + i` is inside the signal and `window[i] = 0` otherwise
(trailing partial frames are zero-padded, never skipped or truncated). -/
theorem c4_frame_offsets_and_analysis_window (samples : List ℚ)
    (hann : ℕ → ℚ) (c cs i : ℕ) (hi : i < windowSize) :
    overlap = windowSize / 2 ∧ overlap = 1024 ∧
    (c ∈ chunkStarts samples.length ↔
      c < samples.length ∧ ∃ k, c = k * overlap) ∧
    (analysisWindow samples (hannWindow hann) cs).length = windowSize ∧
    (analysisWindow samples (hannWindow hann) cs).getD i 0 =
      (if cs + i < samples.length then samples.getD (cs + i) 0 * hann i
       else 0) := by
  refine ⟨overlap_eq_half_windowSize, overlap_eq,
    mem_chunkStarts samples.length c,
    analysisWindow_length samples (hannWindow hann) cs, ?_⟩
  rw [analysisWindow_getD samples (hannWindow hann) cs hi,
    hannWindow_getD hann hi]

/-- C4 witness: a concrete instantiation on a one-sample signal. -/
theorem c4_frame_offsets_and_analysis_window_witness :
    0 < windowSize ∧
    (overlap = windowSize / 2 ∧ overlap = 1024 ∧
     (0 ∈ chunkStarts ([(5 : ℚ)] : List ℚ).length ↔
       0 < ([(5 : ℚ)] : List ℚ).length ∧ ∃ k, 0 = k * overlap) ∧
     (analysisWindow [(5 : ℚ)] (hannWindow fun _ => 1) 0).length = windowSize ∧
     (analysisWindow [(5 : ℚ)] (hannWindow fun _ => 1) 0).getD 0 0 =
       (if 0 + 0 < ([(5 : ℚ)] : List ℚ).length then
          ([(5 : ℚ)] : List ℚ).getD (0 + 0) 0 * (fun _ => (1 : ℚ)) 0
        else 0)) :=
  ⟨windowSize_pos,
   c4_frame_offsets_and_analysis_window [(5 : ℚ)] (fun _ => 1) 0 0 0
     windowSize_pos⟩

/-- C6: for every input length, if every input sample is zero then
`separate_frequencies` returns all-zero low-band and high-band outputs (for
any transform pair that maps zero buffers to zero buffers, as the Fourier
pair does by linearity). -/
theorem c6_silence_preservation (sr : ℕ) (hann : ℕ → ℚ) (t : Transform)
    (samples : List ℚ) (lc hc : ℚ)
    (hzero : ∀ x ∈ samples, x = 0)
    (hfwd : t.fwd (List.replicate windowSize 0)
      = List.replicate (windowSize / 2 + 1) (0, 0))
    (hinv : t.inv (List.replicate (windowSize / 2 + 1) (0, 0))
      = List.replicate windowSize 0) :
    separate_frequencies sr hann t samples lc hc =
      Except.ok (List.replicate samples.length 0,
                 List.replicate samples.length 0) := by
  have hs : samples = List.replicate samples.length 0 :=
    List.eq_replicate_iff.2 ⟨rfl, hzero⟩
  conv_lhs => rw [hs]
  exact separate_frequencies_zero sr samples.length hann t lc hc hfwd hinv

/-- C6 witness: a concrete all-zero input of length one. -/
theorem c6_silence_preservation_witness :
    (∀ x ∈ ([(0 : ℚ)] : List ℚ), x = 0) ∧
    separate_frequencies 44100 (fun _ => 0) zeroTransform [(0 : ℚ)] 200 2000 =
      Except.ok (List.replicate ([(0 : ℚ)] : List ℚ).length 0,
                 List.replicate ([(0 : ℚ)] : List ℚ).length 0) :=
  ⟨by decide,
   c6_silence_preservation 44100 (fun _ => 0) zeroTransform [(0 : ℚ)] 200 2000
     (by decide) rfl rfl⟩

/-- C10: `separate_frequencies` never actually fails — every buffer handed
to a forward or inverse transform has exactly the planned length, so the
error branch is unreachable and the function returns `Ok` on every input
slice and cutoff pair. -/
theorem c10_never_fails (sr : ℕ) (hann : ℕ → ℚ) (t : Transform)
    (samples : List ℚ) (lc hc : ℚ) :
    ∃ low high,
      separate_frequencies sr hann t samples lc hc = Except.ok (low, high) := by
  obtain ⟨st, _, hsep, _, _⟩ := separate_frequencies_total sr hann t samples lc hc
  exact ⟨st.lowFreq, st.highFreq, hsep⟩

/-- C7: `separate_frequencies` returns an error exactly when, after some
successfully processed prefix of frames, the forward transform of the next
frame's window or an inverse transform of one of its masked spectra fails;
the error of that frame is propagated immediately (the later frames are
never processed) and the overall result is that bare error — no partial
low/high output is returned. -/
theorem c7_error_propagation (sr : ℕ) (hann : ℕ → ℚ) (t : Transform)
    (samples : List ℚ) (lc hc : ℚ) (e : String) :
    (separate_frequencies sr hann t samples lc hc = Except.error e ↔
      ∃ l1 cs l2 st,
        chunkStarts samples.length = l1 ++ cs :: l2 ∧
        runFrames t (hannWindow hann) (cutoffBin sr lc) (cutoffBin sr hc)
          samples (initState samples.length) l1 = Except.ok st ∧
        processFrame t (hannWindow hann) (cutoffBin sr lc) (cutoffBin sr hc)
          samples st cs = Except.error e) ∧
    (∀ (w : List ℚ) (lb hb : ℕ) (st : SepState) (cs : ℕ),
      processFrame t w lb hb samples st cs = Except.error e ↔
        (fwdProcess t (analysisWindow samples w cs) st.spectrum
            = Except.error e ∨
         ∃ spec,
           fwdProcess t (analysisWindow samples w cs) st.spectrum
             = Except.ok spec ∧
           (invProcess t (applyMasks lb hb spec).1 (List.replicate windowSize 0)
               = Except.error e ∨
            ∃ lw,
              invProcess t (applyMasks lb hb spec).1
                  (List.replicate windowSize 0) = Except.ok lw ∧
              invProcess t (applyMasks lb hb spec).2
                  (List.replicate windowSize 0) = Except.error e))) := by
  constructor
  · simp only [separate_frequencies]
    cases hr : runFrames t (hannWindow hann) (cutoffBin sr lc) (cutoffBin sr hc)
        samples (initState samples.length) (chunkStarts samples.length) with
    | ok st =>
      constructor
      · intro hcontra
        exact Except.noConfusion hcontra
      · rintro ⟨l1, cs, l2, st', hdec, hrun, herr⟩
        have herrall : runFrames t (hannWindow hann) (cutoffBin sr lc)
            (cutoffBin sr hc) samples (initState samples.length)
            (chunkStarts samples.length) = Except.error e :=
          (runFrames_error_iff t (hannWindow hann) (cutoffBin sr lc)
            (cutoffBin sr hc) samples (chunkStarts samples.length)
            (initState samples.length) e).2 ⟨l1, cs, l2, st', hdec, hrun, herr⟩
        rw [hr] at herrall
        exact Except.noConfusion herrall
    | error e0 =>
      constructor
      · intro h
        have h' : e0 = e := by
          have h2 : (Except.error e0 : Except String (List ℚ × List ℚ))
              = Except.error e := h
          rwa [Except.error.injEq] at h2
        subst h'
        exact (runFrames_error_iff t (hannWindow hann) (cutoffBin sr lc)
          (cutoffBin sr hc) samples (chunkStarts samples.length)
          (initState samples.length) e0).1 hr
      · rintro ⟨l1, cs, l2, st', hdec, hrun, herr⟩
        have herrall := (runFrames_error_iff t (hannWindow hann)
          (cutoffBin sr lc) (cutoffBin sr hc) samples
          (chunkStarts samples.length) (initState samples.length) e).2
          ⟨l1, cs, l2, st', hdec, hrun, herr⟩
        rw [hr, Except.error.injEq] at herrall
        show Except.error e0 = Except.error e
        rw [herrall]
  · intro w lb hb st cs
    exact processFrame_error_iff t w lb hb samples st cs e

/-- C8: if the input path does not exist, `main` logs the error and
terminates successfully (returns `Ok`, exit code 0) without creating the
output directory, decoding, separating, or writing any file. -/
theorem c8_missing_input_exits_ok (w : World) (lc hc : ℚ) (t : Transform)
    (hann : ℕ → ℚ) (h : w.inputExists = false) :
    (mainRun w lc hc t hann).1 = Except.ok () ∧
    MainAction.logInputMissing ∈ (mainRun w lc hc t hann).2 ∧
    MainAction.createOutputDir ∉ (mainRun w lc hc t hann).2 ∧
    MainAction.loadAudio ∉ (mainRun w lc hc t hann).2 ∧
    MainAction.separate ∉ (mainRun w lc hc t hann).2 ∧
    MainAction.saveLow ∉ (mainRun w lc hc t hann).2 ∧
    MainAction.saveHigh ∉ (mainRun w lc hc t hann).2 := by
  have hm : mainRun w lc hc t hann = (Except.ok (), [MainAction.logInputMissing]) := by
    rw [mainRun, if_pos h]
  rw [hm]
  refine ⟨rfl, by decide, by decide, by decide, by decide, by decide, by decide⟩

/-- C8 witness: the concrete missing-input environment. -/
theorem c8_missing_input_exits_ok_witness :
    missingInputWorld.inputExists = false ∧
    ((mainRun missingInputWorld 200 2000 zeroTransform fun _ => 0).1
        = Except.ok () ∧
     MainAction.logInputMissing
        ∈ (mainRun missingInputWorld 200 2000 zeroTransform fun _ => 0).2 ∧
     MainAction.createOutputDir
        ∉ (mainRun missingInputWorld 200 2000 zeroTransform fun _ => 0).2 ∧
     MainAction.loadAudio
        ∉ (mainRun missingInputWorld 200 2000 zeroTransform fun _ => 0).2 ∧
     MainAction.separate
        ∉ (mainRun missingInputWorld 200 2000 zeroTransform fun _ => 0).2 ∧
     MainAction.saveLow
        ∉ (mainRun missingInputWorld 200 2000 zeroTransform fun _ => 0).2 ∧
     MainAction.saveHigh
        ∉ (mainRun missingInputWorld 200 2000 zeroTransform fun _ => 0).2) :=
  ⟨rfl, c8_missing_input_exits_ok missingInputWorld 200 2000 zeroTransform
    (fun _ => 0) rfl⟩

lemma foldl_append_map (frames : List (List ℤ)) :
    ∀ init : List ℚ,
      frames.foldl
          (fun samples data => samples ++ data.map fun s : ℤ => (s : ℚ) / 32768)
          init =
        init ++
          (frames.map fun data => data.map fun s : ℤ => (s : ℚ) / 32768).flatten := by
  induction frames with
  | nil => intro init; simp
  | cons d rest ih =>
    intro init
    rw [List.foldl_cons, ih, List.map_cons, List.flatten_cons, List.append_assoc]

lemma load_audio_eq (frames : List (List ℤ)) :
    load_audio frames =
      (frames.map fun data => data.map fun s : ℤ => (s : ℚ) / 32768).flatten := by
  rw [load_audio, foldl_append_map, List.nil_append]

/-- C9: every sample produced by `load_audio` lies in `[-1, 1]`: each
decoded 16-bit sample `s` (so `-32768 ≤ s ≤ 32767`) is converted to
`s / 32768`, which lies in `[-1, 32767/32768] ⊆ [-1, 1]`. -/
theorem c9_load_audio_range (frames : List (List ℤ))
    (h : ∀ f ∈ frames, ∀ s ∈ f, -32768 ≤ s ∧ s ≤ 32767) :
    ∀ x ∈ load_audio frames, -1 ≤ x ∧ x ≤ 32767 / 32768 ∧ x ≤ 1 := by
  intro x hx
  rw [load_audio_eq] at hx
  obtain ⟨t', ht', hxt⟩ := List.mem_flatten.1 hx
  rw [List.mem_map] at ht'
  obtain ⟨data, hdata, hdt⟩ := ht'
  subst hdt
  rw [List.mem_map] at hxt
  obtain ⟨s, hs, hsx⟩ := hxt
  subst hsx
  obtain ⟨hlo, hhi⟩ := h data hdata s hs
  have hlo' : (-32768 : ℚ) ≤ (s : ℚ) := by exact_mod_cast hlo
  have hhi' : (s : ℚ) ≤ 32767 := by exact_mod_cast hhi
  have h32 : (0 : ℚ) < 32768 := by norm_num
  refine ⟨?_, ?_, ?_⟩
  · rw [le_div_iff h32]
    linarith
  · rw [div_le_div_iff h32 h32]
    nlinarith
  · rw [div_le_one h32]
    linarith

/-- C9 witness: a concrete decoded frame containing the extreme samples. -/
theorem c9_load_audio_range_witness :
    (∀ f ∈ [[(32767 : ℤ), -32768, 0]], ∀ s ∈ f, -32768 ≤ s ∧ s ≤ 32767) ∧
    ∀ x ∈ load_audio [[(32767 : ℤ), -32768, 0]],
      -1 ≤ x ∧ x ≤ 32767 / 32768 ∧ x ≤ 1 :=
  ⟨by decide, c9_load_audio_range [[(32767 : ℤ), -32768, 0]] (by decide)⟩

end Saunds
